import Mathlib

/-!
Shallow embedding of the travel-planning backend (magentic): the turn
normalizer (utils.py, enforce_role_alternation), the keyword intent
classifier (agents.py, supervisor_agent), the city resolver and result
assembler (app.py, get_city_name and the flight supervisor formatting
branch), and the routing state machine (magentic_ai.py, supervisor_agent
over the LangGraph workflow).

Python strings are modelled as lists of characters so that every
operation is executable by kernel reduction.
-/

/-- Coerce a Lean string literal to the character-list representation
used throughout the embedding. -/
def str (s : String) : List Char := s.toList

/-- Python str.lower (ASCII). -/
def pyLower (s : List Char) : List Char := s.map Char.toLower

/-- Python str.upper (ASCII). -/
def pyUpper (s : List Char) : List Char := s.map Char.toUpper

/-- Python str.strip: remove leading and trailing whitespace. -/
def pyStrip (s : List Char) : List Char :=
  ((s.dropWhile Char.isWhitespace).reverse.dropWhile Char.isWhitespace).reverse

/-- Helper for wordCount: the Bool records whether we are inside a word. -/
def wordCountAux : Bool → List Char → Nat
  | _, [] => 0
  | inw, c :: rest =>
    if c.isWhitespace then wordCountAux false rest
    else (if inw then 0 else 1) + wordCountAux true rest

/-- Number of whitespace-separated words, matching len(s.split()) in Python. -/
def wordCount (s : List Char) : Nat := wordCountAux false s

/-- Bool test that the first list starts the second (prefix of characters). -/
def startsWith : List Char → List Char → Bool
  | [], _ => true
  | _ :: _, [] => false
  | a :: as, b :: bs => a == b && startsWith as bs

/-- Python substring containment: needle in hay. -/
def containsSub : List Char → List Char → Bool
  | [], needle => needle.isEmpty
  | c :: rest, needle => startsWith needle (c :: rest) || containsSub rest needle

/-- One conversation message: a dict with role and content keys
(src/utils.py, src/agents.py, src/magentic_ai.py). -/
structure Msg where
  role : List Char
  content : List Char
deriving DecidableEq

/-- The assistant-role placeholder inserted by enforce_role_alternation
(src/utils.py line 9). -/
def assistantPlaceholder : Msg :=
  ⟨str "assistant", str "I\x27m processing your request..."⟩

/-- The user-role placeholder inserted by enforce_role_alternation
(src/utils.py line 11). -/
def userPlaceholder : Msg := ⟨str "user", str "..."⟩

/-- The loop body of enforce_role_alternation (src/utils.py lines 6-12):
prev is fixed[-1] at the start of each iteration, which is always the
previously appended original message. -/
def alternationFix (prev : Msg) : List Msg → List Msg
  | [] => []
  | m :: rest =>
    (if m.role = prev.role then
       (if m.role = str "user" then [assistantPlaceholder]
        else if m.role = str "assistant" then [userPlaceholder]
        else [])
     else []) ++ m :: alternationFix m rest

/-- enforce_role_alternation (src/utils.py lines 1-13). -/
def enforce_role_alternation : List Msg → List Msg
  | [] => []
  | m :: rest => m :: alternationFix m rest

/-- Flight keyword list (src/agents.py line 61). -/
def flight_keywords : List (List Char) :=
  [str "flight", str "fly", str "ticket", str "airline", str "airport",
   str "depart", str "arrive"]

/-- Lodging keyword list (src/agents.py line 62). -/
def lodging_keywords : List (List Char) :=
  [str "hotel", str "lodging", str "accommodation", str "stay", str "inn",
   str "motel", str "hostel", str "bnb", str "room"]

/-- Which handler the keyword supervisor routes to (src/agents.py lines 63-73). -/
inductive Route where
  | flightAgent
  | lodgingAgent
  | generalChat
deriving DecidableEq

/-- The keyword intent classification performed by supervisor_agent in
src/agents.py lines 60-73 on the lowercased content of the last message. -/
def classify (content : List Char) : Route :=
  let uc := pyLower content
  if flight_keywords.any (fun k => containsSub uc k) then Route.flightAgent
  else if lodging_keywords.any (fun k => containsSub uc k) then Route.lodgingAgent
  else Route.generalChat

/-- AIRPORT_TO_CITY mapping (src/app.py lines 53-74). -/
def AIRPORT_TO_CITY : List (List Char × List Char) :=
  [(str "SFO", str "San Francisco"),
   (str "LAX", str "Los Angeles"),
   (str "JFK", str "New York"),
   (str "LGA", str "New York"),
   (str "EWR", str "Newark"),
   (str "ORD", str "Chicago"),
   (str "DFW", str "Dallas"),
   (str "ATL", str "Atlanta"),
   (str "MIA", str "Miami"),
   (str "SEA", str "Seattle"),
   (str "DEN", str "Denver"),
   (str "LAS", str "Las Vegas"),
   (str "PHX", str "Phoenix"),
   (str "BOS", str "Boston"),
   (str "IAD", str "Washington"),
   (str "DCA", str "Washington"),
   (str "SJC", str "San Jose"),
   (str "OAK", str "Oakland"),
   (str "PDX", str "Portland"),
   (str "SAN", str "San Diego")]

/-- get_city_name (src/app.py lines 76-83): uppercase and strip, then
look up the airport table, falling back to the transformed input. -/
def get_city_name (location : List Char) : List Char :=
  let loc := pyStrip (pyUpper location)
  match AIRPORT_TO_CITY.lookup loc with
  | some city => city
  | none => loc

/-- FlightOption (src/app.py lines 106-111). -/
structure FlightOption where
  airline : List Char
  price : List Char
  dates : List Char
  link : List Char
  accessibility : Option (List Char)
deriving DecidableEq

/-- Python f.accessibility or two-quote empty string: None becomes empty. -/
def orEmpty : Option (List Char) → List Char
  | some s => s
  | none => []

/-- One table row of the flight formatting loop (src/app.py line 266). -/
def flightRow (f : FlightOption) : List Char :=
  str "| " ++ f.airline ++ str " | " ++ f.price ++ str " | " ++ f.dates ++
    str " | [link](" ++ f.link ++ str ") | " ++ orEmpty f.accessibility ++ str " |\n"

/-- The markdown table header emitted for a nonempty flight list
(src/app.py line 264). -/
def tableHeader : List Char :=
  str "| Airline | Price | Dates | Link | Accessibility |\n|--------|-------|-------|------|---------------|\n"

/-- The result-assembly branch of supervisor_agent in src/app.py lines
262-268: weather heading, flights heading, then either a markdown table
with one row per option or the no-flights line. -/
def assemble (weather : List Char) (flights : List FlightOption) : List Char :=
  let formatted := str "**Weather**\n" ++ weather ++ str "\n\n**Flights**\n"
  if flights.isEmpty then formatted ++ str "No flights found."
  else flights.foldl (fun acc f => acc ++ flightRow f) (formatted ++ tableHeader)

/-- MAX_ITERATIONS (src/magentic_ai.py line 86). -/
def MAX_ITERATIONS : Nat := 6

/-- The LangGraph AgentState fields used by the supervisor
(src/magentic_ai.py lines 121-123): next_node is None until the first
supervisor decision. -/
structure AgentState where
  messages : List Msg
  next_node : Option (List Char)
  iteration_count : Nat
deriving DecidableEq

/-- A state-update dict returned by the supervisor node: next_node is
always present, iteration_count and extra messages only sometimes. -/
structure SupUpdate where
  next_node : List Char
  iteration_count : Option Nat
  new_messages : List Msg
deriving DecidableEq

/-- FINISH (src/magentic_ai.py line 119). -/
def FINISH : SupUpdate := ⟨str "FINISH", none, []⟩

/-- The canned clarifying reply (src/magentic_ai.py lines 179-183). -/
def cannedReply : Msg :=
  ⟨str "assistant",
   str "Welcome! I can help with booking **accessible flights and hotels**.\nPlease tell me:\n- Your travel dates\n- Destination\n- Any accessibility needs (e.g., wheelchair assistance)."⟩

/-- The short-circuit update returned for low-information input
(src/magentic_ai.py lines 176-184). -/
def cannedFinish : SupUpdate := ⟨str "FINISH", none, [cannedReply]⟩

/-- next((m.content for m in messages if m.role == user), empty)
(src/magentic_ai.py line 174): the FIRST user message. -/
def firstUserContent (ms : List Msg) : List Char :=
  match ms.find? (fun m => m.role == str "user") with
  | some m => m.content
  | none => []

/-- supervisor_agent (src/magentic_ai.py lines 170-202). The llm-backed
selection chain is abstracted as an arbitrary select function from the
current state to a node name. -/
def supervisorAgent (select : AgentState → List Char) (s : AgentState) : SupUpdate :=
  let count := s.iteration_count + 1
  if count > MAX_ITERATIONS then FINISH
  else if wordCount (pyStrip (firstUserContent s.messages)) < 3 then cannedFinish
  else
    let nn := select s
    if s.next_node = some nn then FINISH
    else ⟨nn, some count, []⟩

/-- LangGraph merge of a supervisor update into the state: messages are
appended, the other keys are overwritten when present. -/
def applyUpdate (s : AgentState) (u : SupUpdate) : AgentState :=
  { messages := s.messages ++ u.new_messages
    next_node := some u.next_node
    iteration_count := u.iteration_count.getD s.iteration_count }

/-- A worker node (src/magentic_ai.py lines 204-221) appends one
assistant message and touches nothing else. -/
def workerStep (reply : Msg) (s : AgentState) : AgentState :=
  { s with messages := s.messages ++ [reply] }

/-- Run select reply s n: starting the LangGraph loop at a supervisor
step on state s, exactly n capability dispatches happen before the
conditional edge routes to final_answer. select is the arbitrary
selection policy, reply the arbitrary behavior of the dispatched worker. -/
inductive Run (select : AgentState → List Char) (reply : AgentState → List Char → Msg) :
    AgentState → Nat → Prop where
  | finish (s : AgentState) :
      (supervisorAgent select s).next_node = str "FINISH" →
      Run select reply s 0
  | dispatch (s : AgentState) (n : Nat) :
      (supervisorAgent select s).next_node ≠ str "FINISH" →
      Run select reply
        (workerStep (reply s (supervisorAgent select s).next_node)
          (applyUpdate s (supervisorAgent select s))) n →
      Run select reply s (n + 1)

/-- Adjacent-role check used to state the alternation invariant. -/
def noAdjSameRole : List Msg → Bool
  | [] => true
  | [_] => true
  | a :: b :: rest => (a.role != b.role) && noAdjSameRole (b :: rest)

/-- Adjacent-role check relative to a preceding message. -/
def noAdjFrom (prev : Msg) : List Msg → Bool
  | [] => true
  | m :: rest => (prev.role != m.role) && noAdjFrom m rest

/-- The relation capturing that a transcript is obtained from another by
inserting placeholder messages only: no original message is dropped,
reordered or edited. -/
inductive PlaceholderInsertion : List Msg → List Msg → Prop where
  | nil : PlaceholderInsertion [] []
  | keep (m : Msg) (t o : List Msg) :
      PlaceholderInsertion t o → PlaceholderInsertion (m :: t) (m :: o)
  | pad (p : Msg) (t o : List Msg) :
      p = assistantPlaceholder ∨ p = userPlaceholder →
      PlaceholderInsertion t o → PlaceholderInsertion t (p :: o)

/-- Invariant relation between neighboring messages in normalizer output:
equal adjacent roles can only occur for roles other than user and
assistant. -/
def RolesOk (a b : Msg) : Prop :=
  a.role = b.role → (a.role ≠ str "user" ∧ a.role ≠ str "assistant")

/-- Concrete selection policy used in witnesses. -/
def flightSelect : AgentState → List Char := fun _ => str "Flight-Agent"

/-- Concrete worker behavior used in witnesses. -/
def okReply : AgentState → List Char → Msg := fun _ _ => ⟨str "assistant", str "ok"⟩

/-- A state whose only message is a well-formed flight request. -/
def c1State : AgentState :=
  ⟨[⟨str "user", str "book an accessible flight to Boston"⟩], none, 0⟩

/-- A state in which the iteration guard is about to trip. -/
def c1GuardState : AgentState :=
  ⟨[⟨str "user", str "book an accessible flight to Boston"⟩],
   some (str "Flight-Agent"), MAX_ITERATIONS⟩

/-- A state whose latest user message has fewer than 3 words but whose
first user message is long. -/
def c3State : AgentState :=
  ⟨[⟨str "user", str "please book a flight now"⟩, ⟨str "user", str "hi"⟩], none, 0⟩

/-- A transcript with two same-role user messages separated by a system
message. -/
def c2Transcript : List Msg :=
  [⟨str "user", str "a"⟩, ⟨str "system", str "s"⟩, ⟨str "user", str "b"⟩]

/-- A concrete flight option. -/
def c9Flight : FlightOption :=
  ⟨str "AA", str "100 dollars", str "Jan 1 to Jan 2", str "http://x", none⟩

/-- Helper: the two keyword-distinct roles compare as different. -/
theorem noAdjSameRole_cons (m : Msg) (l : List Msg) :
    noAdjSameRole (m :: l) = noAdjFrom m l := by
  induction l generalizing m with
  | nil => rfl
  | cons b rest ih =>
      simp only [noAdjSameRole, noAdjFrom]
      rw [ih b]

/-- Helper: the alternation loop output, read from the previous original
message, never repeats a user or assistant role between neighbors, given
that every role in sight is user or assistant. -/
theorem alternationFix_noAdj (rest : List Msg) :
    ∀ prev : Msg,
      (prev.role = str "user" ∨ prev.role = str "assistant") →
      (∀ m ∈ rest, m.role = str "user" ∨ m.role = str "assistant") →
      noAdjFrom prev (alternationFix prev rest) = true := by
  induction rest with
  | nil => intro prev _ _; rfl
  | cons m rest ih =>
      intro prev hp hr
      have hm' : m.role = str "user" ∨ m.role = str "assistant" :=
        hr m (List.mem_cons_self m rest)
      have hrest : ∀ x ∈ rest, x.role = str "user" ∨ x.role = str "assistant" :=
        fun x hx => hr x (List.mem_cons_of_mem m hx)
      by_cases hm : m.role = prev.role
      · rcases hm' with hu | ha
        · have hpu : prev.role = str "user" := hm.symm.trans hu
          simp only [alternationFix]
          rw [if_pos hm, if_pos hu]
          simp only [List.cons_append, List.nil_append, noAdjFrom]
          rw [ih m (Or.inl hu) hrest, hpu, hu]
          decide
        · have hpa : prev.role = str "assistant" := hm.symm.trans ha
          have hu : ¬ (m.role = str "user") := by rw [ha]; decide
          simp only [alternationFix]
          rw [if_pos hm, if_neg hu, if_pos ha]
          simp only [List.cons_append, List.nil_append, noAdjFrom]
          rw [ih m (Or.inr ha) hrest, hpa, ha]
          decide
      · simp only [alternationFix]
        rw [if_neg hm]
        simp only [List.nil_append, noAdjFrom]
        rw [ih m hm' hrest]
        have hne : prev.role ≠ m.role := fun hc => hm hc.symm
        simp [bne_iff_ne]
        exact hne

/-- C2 counterexample: on the transcript user-system-user the code
inserts no placeholder, because the cursor comparison is performed
against the last emitted message including system messages; the
non-system subsequence of the output therefore has two adjacent
user-role messages. -/
theorem C2_counterexample :
    noAdjSameRole ((enforce_role_alternation c2Transcript).filter
        (fun m => m.role != str "system")) = false ∧
    enforce_role_alternation c2Transcript = c2Transcript := by decide

/-- C2 (amended): for every transcript whose messages all carry role
user or assistant, the output of enforce_role_alternation has no two
adjacent messages with the same role. -/
theorem C2_alternation_user_assistant (t : List Msg)
    (h : ∀ m ∈ t, m.role = str "user" ∨ m.role = str "assistant") :
    noAdjSameRole (enforce_role_alternation t) = true := by
  cases t with
  | nil => rfl
  | cons m rest =>
      have : enforce_role_alternation (m :: rest) = m :: alternationFix m rest := rfl
      rw [this, noAdjSameRole_cons]
      exact alternationFix_noAdj rest m (h m (List.mem_cons_self m rest))
        (fun x hx => h x (List.mem_cons_of_mem m hx))

/-- Witness for C2 (amended) at a two-user transcript. -/
theorem C2_alternation_user_assistant_witness :
    noAdjSameRole (enforce_role_alternation
      [⟨str "user", str "a"⟩, ⟨str "user", str "b"⟩]) = true :=
  C2_alternation_user_assistant _ (by decide)

/-- Helper: the alternation loop inserts only placeholder messages and
keeps every original message in order. -/
theorem alternationFix_insertion (rest : List Msg) :
    ∀ prev : Msg, PlaceholderInsertion rest (alternationFix prev rest) := by
  induction rest with
  | nil => intro prev; exact PlaceholderInsertion.nil
  | cons m rest ih =>
      intro prev
      by_cases hm : m.role = prev.role
      · by_cases hu : m.role = str "user"
        · simp only [alternationFix]
          rw [if_pos hm, if_pos hu]
          simp only [List.cons_append, List.nil_append]
          exact PlaceholderInsertion.pad _ _ _ (Or.inl rfl)
            (PlaceholderInsertion.keep m _ _ (ih m))
        · by_cases ha : m.role = str "assistant"
          · simp only [alternationFix]
            rw [if_pos hm, if_neg hu, if_pos ha]
            simp only [List.cons_append, List.nil_append]
            exact PlaceholderInsertion.pad _ _ _ (Or.inr rfl)
              (PlaceholderInsertion.keep m _ _ (ih m))
          · simp only [alternationFix]
            rw [if_pos hm, if_neg hu, if_neg ha]
            simp only [List.nil_append]
            exact PlaceholderInsertion.keep m _ _ (ih m)
      · simp only [alternationFix]
        rw [if_neg hm]
        simp only [List.nil_append]
        exact PlaceholderInsertion.keep m _ _ (ih m)

/-- C6: enforce_role_alternation returns its input with placeholder
messages inserted at some positions, so removing the inserted
placeholders yields exactly the input, in order, and the empty
transcript is returned unchanged. -/
theorem C6_order_preserving :
    (∀ t : List Msg, PlaceholderInsertion t (enforce_role_alternation t)) ∧
    enforce_role_alternation [] = [] := by
  refine ⟨?_, rfl⟩
  intro t
  cases t with
  | nil => exact PlaceholderInsertion.nil
  | cons m rest => exact PlaceholderInsertion.keep m _ _ (alternationFix_insertion rest m)

/-- C4 counterexample: the resolver does not return an unrecognized
input unchanged; it uppercases it first. -/
theorem C4_counterexample :
    ¬ (get_city_name (str "Timbuktu") = str "Timbuktu") ∧
    get_city_name (str "Timbuktu") = str "TIMBUKTU" := by decide

/-- C4 (amended): a recognized airport code resolves to its canonical
city name, and every input whose uppercased, stripped form is not in the
table is returned as that uppercased, stripped form. -/
theorem C4_city_resolution :
    get_city_name (str "SFO") = str "San Francisco" ∧
    ∀ location : List Char,
      AIRPORT_TO_CITY.lookup (pyStrip (pyUpper location)) = none →
      get_city_name location = pyStrip (pyUpper location) := by
  refine ⟨by decide, ?_⟩
  intro location h
  simp only [get_city_name]
  rw [h]

/-- Witness for C4 (amended) at an unrecognized city name. -/
theorem C4_city_resolution_witness :
    get_city_name (str "Gotham") = str "GOTHAM" :=
  C4_city_resolution.2 (str "Gotham") (by decide)

/-- C5: a message containing a flight keyword is routed to the flight
agent, whatever lodging keywords it also contains. -/
theorem C5_flight_precedence (content : List Char)
    (hf : ∃ k, k ∈ flight_keywords ∧ containsSub (pyLower content) k = true)
    (_hl : ∃ k, k ∈ lodging_keywords ∧ containsSub (pyLower content) k = true) :
    classify content = Route.flightAgent := by
  obtain ⟨k, hk, hc⟩ := hf
  have hany : flight_keywords.any (fun q => containsSub (pyLower content) q) = true :=
    List.any_eq_true.mpr ⟨k, hk, hc⟩
  simp only [classify]
  rw [if_pos hany]

/-- Witness for C5 at a message with both a flight and a lodging keyword. -/
theorem C5_flight_precedence_witness :
    classify (str "Book a FLIGHT and a hotel") = Route.flightAgent :=
  C5_flight_precedence _ ⟨str "flight", by decide⟩ ⟨str "hotel", by decide⟩

/-- C8 counterexample: with zero flight options the assembled markdown
is exactly the weather and flights sections with the no-flights line;
it contains no hotels section and no hotels no-results line at all. -/
theorem C8_counterexample :
    assemble (str "w") [] = str "**Weather**\nw\n\n**Flights**\nNo flights found." ∧
    containsSub (assemble (str "w") []) (str "otel") = false := by decide

/-- C8 (amended): with zero flight options the assembled markdown always
ends with the explicit no-flights line. -/
theorem C8_no_flights_line (weather : List Char) :
    ∃ p : List Char, assemble weather [] = p ++ str "No flights found." :=
  ⟨str "**Weather**\n" ++ weather ++ str "\n\n**Flights**\n", rfl⟩

/-- Helper: the row-accumulation loop of the assembler concatenates one
row per flight option in order. -/
theorem foldl_rows (fs : List FlightOption) :
    ∀ init : List Char,
      fs.foldl (fun acc f => acc ++ flightRow f) init
        = init ++ (fs.map flightRow).flatten := by
  induction fs with
  | nil => intro init; simp
  | cons f fs ih =>
      intro init
      simp only [List.foldl_cons, List.map_cons, List.flatten_cons]
      rw [ih, List.append_assoc]

/-- C9 counterexample: a nonempty flight list is rendered as a markdown
table, whose header appears in the output. -/
theorem C9_counterexample :
    containsSub (assemble (str "w") [c9Flight])
      (str "| Airline | Price | Dates | Link | Accessibility |") = true := by decide

/-- C9 (amended): for every nonempty flight list the assembler emits the
weather heading, the flights heading, the markdown table header and then
exactly one table row per option, in order; there is no hotels section. -/
theorem C9_table_rendering (weather : List Char) (fs : List FlightOption) (h : fs ≠ []) :
    assemble weather fs =
      (str "**Weather**\n" ++ weather ++ str "\n\n**Flights**\n") ++ tableHeader ++
        (fs.map flightRow).flatten ∧
    (fs.map flightRow).length = fs.length := by
  refine ⟨?_, by simp⟩
  have hne : fs.isEmpty = false := by
    cases fs with
    | nil => exact absurd rfl h
    | cons a t => rfl
  have hcond : ¬ (fs.isEmpty = true) := by simp [hne]
  simp only [assemble]
  rw [if_neg hcond, foldl_rows]

/-- Witness for C9 (amended) at a one-option flight list. -/
theorem C9_table_rendering_witness :
    assemble (str "w") [c9Flight] =
      (str "**Weather**\n" ++ str "w" ++ str "\n\n**Flights**\n") ++ tableHeader ++
        ([c9Flight].map flightRow).flatten ∧
    ([c9Flight].map flightRow).length = [c9Flight].length :=
  C9_table_rendering (str "w") [c9Flight] (by decide)

/-- C3 counterexample: the supervisor inspects the FIRST user message of
the conversation, so a state whose latest user message has fewer than 3
words is still routed to a capability, with no canned reply. -/
theorem C3_counterexample :
    ((c3State.messages.filter (fun m => m.role == str "user")).getLast?
        = some ⟨str "user", str "hi"⟩) ∧
    wordCount (pyStrip (str "hi")) < 3 ∧
    supervisorAgent flightSelect c3State = ⟨str "Flight-Agent", some 1, []⟩ ∧
    ¬ (supervisorAgent flightSelect c3State = cannedFinish) := by decide

/-- C3 (amended): whenever the FIRST user message of the conversation
has fewer than 3 words and the iteration guard has not tripped, the
supervisor returns the canned clarifying reply with next node FINISH and
no capability is dispatched on that pass. -/
theorem C3_short_circuit_first_user (select : AgentState → List Char) (s : AgentState)
    (hguard : s.iteration_count + 1 ≤ MAX_ITERATIONS)
    (hshort : wordCount (pyStrip (firstUserContent s.messages)) < 3) :
    supervisorAgent select s = cannedFinish := by
  have h1 : ¬ (s.iteration_count + 1 > MAX_ITERATIONS) := by omega
  simp only [supervisorAgent]
  rw [if_neg h1, if_pos hshort]

/-- Witness for C3 (amended) at a one-word user message. -/
theorem C3_short_circuit_first_user_witness :
    supervisorAgent flightSelect ⟨[⟨str "user", str "hi"⟩], none, 0⟩ = cannedFinish :=
  C3_short_circuit_first_user flightSelect _ (by decide) (by decide)

/-- C7: whenever the capability selected on this step equals the
immediately prior selection recorded in the state, the supervisor step
routes to FINISH, so the same capability is never dispatched twice in a
row with an identical decision. -/
theorem C7_no_self_loop (select : AgentState → List Char) (s : AgentState)
    (h : s.next_node = some (select s)) :
    (supervisorAgent select s).next_node = str "FINISH" := by
  simp only [supervisorAgent]
  by_cases h1 : s.iteration_count + 1 > MAX_ITERATIONS
  · rw [if_pos h1]; rfl
  · rw [if_neg h1]
    by_cases h2 : wordCount (pyStrip (firstUserContent s.messages)) < 3
    · rw [if_pos h2]; rfl
    · rw [if_neg h2, if_pos h]; rfl

/-- Witness for C7 at a state that already routed to the flight agent. -/
theorem C7_no_self_loop_witness :
    (supervisorAgent flightSelect
      ⟨[⟨str "user", str "book a flight to Boston"⟩],
       some (str "Flight-Agent"), 1⟩).next_node = str "FINISH" :=
  C7_no_self_loop flightSelect _ (by decide)

/-- Helper: a supervisor step that does not route to FINISH must have
taken the final branch, returning the freshly selected node and the
incremented count, and the guard must have passed. -/
theorem supervisor_dispatch_inv (select : AgentState → List Char) (s : AgentState)
    (h : (supervisorAgent select s).next_node ≠ str "FINISH") :
    supervisorAgent select s = ⟨select s, some (s.iteration_count + 1), []⟩ ∧
    s.iteration_count + 1 ≤ MAX_ITERATIONS := by
  revert h
  simp only [supervisorAgent]
  by_cases h1 : s.iteration_count + 1 > MAX_ITERATIONS
  · rw [if_pos h1]; intro h; exact absurd rfl h
  · rw [if_neg h1]
    by_cases h2 : wordCount (pyStrip (firstUserContent s.messages)) < 3
    · rw [if_pos h2]; intro h; exact absurd rfl h
    · rw [if_neg h2]
      by_cases h3 : s.next_node = some (select s)
      · rw [if_pos h3]; intro h; exact absurd rfl h
      · rw [if_neg h3]; intro _; exact ⟨rfl, by omega⟩

/-- Helper: along any run, the number of remaining dispatches is bounded
by the room left under the iteration guard. -/
theorem run_dispatch_count_le (select : AgentState → List Char)
    (reply : AgentState → List Char → Msg) (s : AgentState) (n : Nat)
    (h : Run select reply s n) : n ≤ MAX_ITERATIONS - s.iteration_count := by
  induction h with
  | finish s hfin => exact Nat.zero_le _
  | dispatch s n hne hrun ih =>
      obtain ⟨heq, hle⟩ := supervisor_dispatch_inv select s hne
      rw [heq] at ih
      simp only [workerStep, applyUpdate, Option.getD_some] at ih
      omega

/-- C1: for every behavior of the selection policy and of the dispatched
workers, a run of the routing state machine started with iteration count
0 performs at most MAX_ITERATIONS = 6 capability dispatches before
routing to FINISH; and whenever the incremented count exceeds the bound
the supervisor returns FINISH immediately, dispatching nothing. -/
theorem C1_termination_bound :
    (∀ (select : AgentState → List Char) (reply : AgentState → List Char → Msg)
        (s : AgentState) (n : Nat),
      Run select reply s n → s.iteration_count = 0 → n ≤ MAX_ITERATIONS) ∧
    (∀ (select : AgentState → List Char) (s : AgentState),
      s.iteration_count + 1 > MAX_ITERATIONS → supervisorAgent select s = FINISH) := by
  constructor
  · intro select reply s n hrun h0
    have hb := run_dispatch_count_le select reply s n hrun
    rw [h0] at hb
    simpa using hb
  · intro select s h1
    simp only [supervisorAgent]
    rw [if_pos h1]

/-- Witness for C1: a concrete run with one dispatch, and the guard
firing at the bound. -/
theorem C1_termination_bound_witness :
    (1 : Nat) ≤ MAX_ITERATIONS ∧ supervisorAgent flightSelect c1GuardState = FINISH :=
  ⟨C1_termination_bound.1 flightSelect okReply c1State 1
      (Run.dispatch _ _ (by decide) (Run.finish _ (by decide))) rfl,
   C1_termination_bound.2 flightSelect c1GuardState (by decide)⟩

/-- Helper: neighboring messages in the alternation loop output can only
share a role when that role is neither user nor assistant. -/
theorem alternationFix_chain (rest : List Msg) :
    ∀ prev : Msg, List.Chain RolesOk prev (alternationFix prev rest) := by
  induction rest with
  | nil => intro prev; exact List.Chain.nil
  | cons m rest ih =>
      intro prev
      by_cases hm : m.role = prev.role
      · by_cases hu : m.role = str "user"
        · simp only [alternationFix]
          rw [if_pos hm, if_pos hu]
          simp only [List.cons_append, List.nil_append]
          refine List.Chain.cons ?_ (List.Chain.cons ?_ (ih m))
          · intro hc
            rw [hm.symm.trans hu] at hc
            exact absurd hc (by decide)
          · intro hc
            rw [hu] at hc
            exact absurd hc (by decide)
        · by_cases ha : m.role = str "assistant"
          · simp only [alternationFix]
            rw [if_pos hm, if_neg hu, if_pos ha]
            simp only [List.cons_append, List.nil_append]
            refine List.Chain.cons ?_ (List.Chain.cons ?_ (ih m))
            · intro hc
              rw [hm.symm.trans ha] at hc
              exact absurd hc (by decide)
            · intro hc
              rw [ha] at hc
              exact absurd hc (by decide)
          · simp only [alternationFix]
            rw [if_pos hm, if_neg hu, if_neg ha]
            simp only [List.nil_append]
            refine List.Chain.cons ?_ (ih m)
            intro _
            exact ⟨fun hc => hu (hm.trans hc), fun hc => ha (hm.trans hc)⟩
      · simp only [alternationFix]
        rw [if_neg hm]
        simp only [List.nil_append]
        refine List.Chain.cons ?_ (ih m)
        intro hc
        exact absurd hc.symm hm

/-- Helper: on input already satisfying the neighbor invariant the
alternation loop inserts nothing. -/
theorem alternationFix_id (rest : List Msg) :
    ∀ prev : Msg, List.Chain RolesOk prev rest → alternationFix prev rest = rest := by
  induction rest with
  | nil => intro prev _; rfl
  | cons m rest ih =>
      intro prev hch
      cases hch with
      | cons r hch =>
          by_cases hm : m.role = prev.role
          · obtain ⟨hnu, hna⟩ := r hm.symm
            have hu : ¬ (m.role = str "user") := fun hc => hnu (hm.symm.trans hc)
            have ha : ¬ (m.role = str "assistant") := fun hc => hna (hm.symm.trans hc)
            simp only [alternationFix]
            rw [if_pos hm, if_neg hu, if_neg ha]
            simp only [List.nil_append]
            rw [ih m hch]
          · simp only [alternationFix]
            rw [if_neg hm]
            simp only [List.nil_append]
            rw [ih m hch]

/-- C10: enforce_role_alternation is idempotent, so a transcript already
produced by the normalizer gains no further placeholder insertions. -/
theorem C10_idempotent (t : List Msg) :
    enforce_role_alternation (enforce_role_alternation t) = enforce_role_alternation t := by
  cases t with
  | nil => rfl
  | cons m rest =>
      show m :: alternationFix m (alternationFix m rest) = m :: alternationFix m rest
      rw [alternationFix_id (alternationFix m rest) m (alternationFix_chain rest m)]
